import Mathlib

/-!
Shallow embedding of the Risk & Decision Engine of the wheel-strategy
trading system (`complete-wheel-strategy-system.py`).

Monetary amounts, prices, implied volatilities, deltas and multipliers are
modelled as rationals (`ℚ`); day counts and counters as integers/naturals.
External data fetches (yfinance / IBKR queries) are modelled as explicit
inputs to the pure decision functions: each decision method reads a snapshot
of market data and account state, and the embedding passes that snapshot in
as a structure.  String reasons keep the static text of the source's
f-strings; numeric interpolations are rendered with `toString`.
-/

namespace Wheel

/-- The `self.thresholds` dict of `WheelMonitor.__init__` (risk thresholds).
Only the keys read by the embedded methods are carried. -/
structure Thresholds where
  max_position_pct : ℚ
  iv_rank_min : ℚ
  iv_min : ℚ
  profit_target : ℚ
  profit_roll : ℚ
  roll_dte : ℤ
  roll_delta_threshold : ℚ
  earnings_buffer_days : ℤ
  win_streak_caution : ℕ
  deriving Repr, DecidableEq

/-- The default values assigned in `WheelMonitor.__init__`. -/
def defaultThresholds : Thresholds :=
  { max_position_pct := 10/100
    iv_rank_min := 50
    iv_min := 20
    profit_target := 50/100
    profit_roll := 80/100
    roll_dte := 21
    roll_delta_threshold := 50/100
    earnings_buffer_days := 7
    win_streak_caution := 10 }

/-- Market-data and account snapshot consumed by
`WheelMonitor.check_entry_criteria(symbol, strike)`: the results of
`get_iv_metrics`, `check_liquidity`, `check_valuation`,
`check_sector_concentration` and `days_to_earnings`, plus the account and
subsystem state the method reads from `self`. -/
structure EntryInputs where
  blackSwanActive : Bool          -- self.black_swan_protocol.active
  iv_rank : ℚ                     -- iv_data['iv_rank']
  current_iv : ℚ                  -- iv_data['current_iv']
  liquidity_liquid : Bool         -- liquidity['liquid']
  liquidity_issues : List String  -- liquidity['issues']
  valuation_meets : Bool          -- valuation['meets_value']
  valuation_issue : String        -- valuation['issue']
  strike : ℚ
  account_value : ℚ
  sector_ok : Bool                -- sector_check['ok']
  sector_issue : String           -- sector_check['issue']
  days_to_earnings : ℤ            -- days_to_earnings(symbol)
  circuit_breaker_active : Bool   -- self.circuit_breaker_active
  consecutive_wins : ℕ            -- self.win_streak_manager.consecutive_wins
  deriving Repr, DecidableEq

/-- The dict returned by `check_entry_criteria` (the `symbol`/`strike` echo
fields are omitted; they are copied verbatim from the arguments). -/
structure EntryCriteria where
  meets_criteria : Bool
  issues : List String
  deriving Repr, DecidableEq

/-- One `criteria['meets_criteria'] = False; criteria['issues'].append(msg)`
step, guarded by the rule's failure condition. -/
def addIssue (c : EntryCriteria) (fails : Bool) (msg : String) : EntryCriteria :=
  if fails then { meets_criteria := false, issues := c.issues ++ [msg] } else c

/-- The liquidity step, which extends `issues` with a whole list
(`criteria['issues'].extend(liquidity['issues'])`). -/
def addIssues (c : EntryCriteria) (fails : Bool) (msgs : List String) : EntryCriteria :=
  if fails then { meets_criteria := false, issues := c.issues ++ msgs } else c

def ivRankMsg (r : ℚ) : String := "IV Rank " ++ toString r ++ "% < 50%"

def ivAbsMsg (v : ℚ) : String := "IV " ++ toString v ++ "% < 20%"

def winStreakMsg (w : ℕ) : String :=
  "Win streak caution: " ++ toString w ++ " consecutive wins"

/-- `WheelMonitor.check_entry_criteria`.  Note the early `return criteria`
after the Black Swan check: when the protocol is active no further rule is
evaluated.  All remaining rules are evaluated unconditionally, each
appending its reason on failure. -/
def check_entry_criteria (t : Thresholds) (inp : EntryInputs) : EntryCriteria :=
  if inp.blackSwanActive then
    { meets_criteria := false, issues := ["Black Swan Protocol active"] }
  else
    let c := addIssue ⟨true, []⟩ (decide (inp.iv_rank < t.iv_rank_min)) (ivRankMsg inp.iv_rank)
    let c := addIssue c (decide (inp.current_iv < t.iv_min)) (ivAbsMsg inp.current_iv)
    let c := addIssues c (!inp.liquidity_liquid) inp.liquidity_issues
    let c := addIssue c (!inp.valuation_meets) inp.valuation_issue
    let c := addIssue c
      (decide (inp.strike * 100 > inp.account_value * t.max_position_pct))
      "Position too large for account"
    let c := addIssue c (!inp.sector_ok) inp.sector_issue
    let c := addIssue c (decide (inp.days_to_earnings ≤ t.earnings_buffer_days))
      "Too close to earnings"
    let c := addIssue c inp.circuit_breaker_active "Circuit breaker active"
    addIssue c (decide (t.win_streak_caution ≤ inp.consecutive_wins))
      (winStreakMsg inp.consecutive_wins)

/-! ## Earnings lookup (`WheelMonitor.days_to_earnings`) -/

/-- Outcome of the yfinance `earnings_dates` query inside
`days_to_earnings`: a next earnings date a known number of days away, an
empty/None calendar, or an exception raised by the fetch. -/
inductive EarningsQuery where
  | dates (next_days : ℤ)
  | noDates
  | fetchError
  deriving Repr, DecidableEq

/-- `WheelMonitor.days_to_earnings`: returns the computed day count when the
query yields dates, and `999` both when no earnings are found and when the
query raises (`except: return 999`). -/
def days_to_earnings : EarningsQuery → ℤ
  | .dates d => d
  | .noDates => 999
  | .fetchError => 999

/-! ## Roll decisions (`WheelMonitor.check_roll_decision` and the option
branch of `WheelMonitor.check_adjustments_needed`) -/

/-- `contract.right` of a short option. -/
inductive OptRight where
  | put
  | call
  deriving Repr, DecidableEq

/-- Snapshot of one option position as read by `check_roll_decision` /
`check_adjustments_needed`: days to expiry, the delta from
`ticker.modelGreeks` (`none` when Greeks are unavailable), unrealized P&L
(`none` models a Python `None`), average cost and signed contract count. -/
structure RollInputs where
  dte : ℤ
  modelGreeksDelta : Option ℚ
  unrealizedPnL : Option ℚ
  avgCost : ℚ
  position : ℤ
  right : OptRight
  deriving Repr, DecidableEq

/-- The decision dict built by `check_roll_decision`. -/
structure RollDecision where
  should_roll : Bool
  reason : Option String
  action : String
  rule_trigger : Option String
  deriving Repr, DecidableEq

/-- Python truthiness of `position.unrealizedPnL` (`None` and `0` falsy). -/
def pnlTruthy : Option ℚ → Bool
  | none => false
  | some x => !(x = 0 : Bool)

/-- The guard `ticker.modelGreeks and abs(ticker.modelGreeks.delta) >
self.thresholds['roll_delta_threshold']`: false when Greeks are missing. -/
def deltaRollFires (t : Thresholds) : Option ℚ → Bool
  | some d => decide (|d| > t.roll_delta_threshold)
  | none => false

/-- `WheelMonitor.check_roll_decision`.  Rule 1 (defensive delta roll) fires
only when `ticker.modelGreeks` is present; rule 2 is the 21-DTE time roll;
rule 3 the 80%-profit roll for short puts.  Each rule returns immediately.
(The ℚ division in rule 3 yields 0 at a zero denominator where Python would
raise; no claim depends on that case.) -/
def check_roll_decision (t : Thresholds) (p : RollInputs) : RollDecision :=
  let hold : RollDecision := ⟨false, none, "HOLD", none⟩
  if deltaRollFires t p.modelGreeksDelta then
    { should_roll := true
      reason := some ("Delta " ++ toString |p.modelGreeksDelta.getD 0| ++ " > " ++
        toString t.roll_delta_threshold)
      action := "ROLL_DEFENSIVE"
      rule_trigger := some "delta_roll" }
  else if p.dte ≤ t.roll_dte then
    { should_roll := true
      reason := some (toString p.dte ++ " DTE reached")
      action := "ROLL_TIME"
      rule_trigger := some "21_dte_roll" }
  else if pnlTruthy p.unrealizedPnL ∧ p.right = OptRight.put ∧ p.position < 0 then
    let pnl_pct := p.unrealizedPnL.getD 0 / |p.avgCost * (p.position : ℚ)|
    if pnl_pct ≥ t.profit_roll ∧ p.dte > 7 then
      { should_roll := true
        reason := some (toString pnl_pct ++ " profit with " ++ toString p.dte ++ " DTE")
        action := "ROLL_PROFIT"
        rule_trigger := some "80pct_roll" }
    else hold
  else hold

/-- One adjustment entry appended by `check_adjustments_needed`. -/
structure Adjustment where
  action : String
  priority : String
  deriving Repr, DecidableEq

/-- The per-option-position body of `WheelMonitor.check_adjustments_needed`:
delta check first (with `continue`), then the DTE check (with `continue`),
then the profit checks (`if`/`elif`, so at most one of them), giving at most
one adjustment per position per pass. -/
def adjustment_for (t : Thresholds) (p : RollInputs) : Option Adjustment :=
  if deltaRollFires t p.modelGreeksDelta then
    some ⟨"ROLL_DEFENSIVE", "CRITICAL"⟩
  else if p.dte ≤ t.roll_dte then
    some ⟨"ROLL_TIME", "IMPORTANT"⟩
  else if pnlTruthy p.unrealizedPnL then
    let pnl_pct := p.unrealizedPnL.getD 0 / |p.avgCost * (p.position : ℚ)|
    if p.right = OptRight.put ∧ p.position < 0 then
      if pnl_pct ≥ t.profit_roll ∧ p.dte > 7 then some ⟨"ROLL_POSITION", "INFO"⟩
      else none
    else if p.right = OptRight.call ∧ p.position < 0 then
      if pnl_pct ≥ t.profit_target then some ⟨"CLOSE_POSITION", "IMPORTANT"⟩
      else none
    else none
  else none

/-! ## Circuit breaker (`WheelMonitor.check_circuit_breaker`) -/

/-- Account state a circuit-breaker evaluation would consult: current and
peak account value, recent daily P&L history (most recent last). -/
structure AccountState where
  account_value : ℚ
  peak_value : ℚ
  daily_pnl : List ℚ
  deriving Repr, DecidableEq

/-- The dict returned by `check_circuit_breaker`. -/
structure CircuitBreakerResult where
  active : Bool
  reason : String
  ends : Option ℤ
  deriving Repr, DecidableEq

/-- `WheelMonitor.check_circuit_breaker`.  The source body is
"TEMPORARILY DISABLED due to event loop conflicts": it ignores the account
state entirely and unconditionally returns an inactive result. -/
def check_circuit_breaker (_s : AccountState) : CircuitBreakerResult :=
  { active := false
    reason := "Circuit breaker temporarily disabled due to event loop conflicts"
    ends := none }

/-! ## Black Swan Protocol (`BlackSwanProtocol.check_activation_conditions`) -/

/-- The mutable state of `BlackSwanProtocol`. -/
structure BlackSwanState where
  active : Bool
  recovery_stage : ℕ
  deriving Repr, DecidableEq

/-- Market snapshot the activation check would consult: VIX level, average
cross-sector correlation, single-day broad-market (SPY) change. -/
structure MarketConditions where
  vix : ℚ
  avg_correlation : ℚ
  spy_daily_change : ℚ
  deriving Repr, DecidableEq

/-- `BlackSwanProtocol.check_activation_conditions`.  The source body is
"TEMPORARILY DISABLED due to yfinance rate limits": it logs a warning and
returns `False` without reading any market data and without calling
`self.activate`, so the state is unchanged. -/
def check_activation_conditions (s : BlackSwanState) (_m : MarketConditions) :
    Bool × BlackSwanState :=
  (false, s)

/-- `BlackSwanProtocol.close_near_term_positions`: of the current option
positions (given by their DTE), those with `dte < 14` receive a close
action.  Returns the selected DTEs. -/
def close_near_term_positions (optionDtes : List ℤ) : List ℤ :=
  optionDtes.filter (fun dte => dte < 14)

/-! ## Decision counter (`DecisionCounter`) -/

/-- A `Decision` record as stored by `DecisionCounter.record_decision`
(timestamp omitted: within one calendar day `_reset_daily_count`'s filter
keeps every recorded decision, so the date plays no role here). -/
structure DecisionRec where
  symbol : String
  action_type : String
  reason : String
  priority : String
  executed : Bool
  deriving Repr, DecidableEq

/-- The state of a `DecisionCounter`. -/
structure CounterState where
  max_daily_decisions : ℕ
  decisions : List DecisionRec
  deriving Repr, DecidableEq

/-- `len([d for d in self.decisions if d.executed])`. -/
def executedCount (s : CounterState) : ℕ :=
  (s.decisions.filter (fun d => d.executed)).length

/-- `DecisionCounter.can_make_decision`. -/
def can_make_decision (s : CounterState) : Bool :=
  executedCount s < s.max_daily_decisions

/-- `DecisionCounter.record_decision`: refused (returns `False`, state
unchanged) exactly when the executed-count cap is reached and the new
decision is flagged `executed=True`; otherwise the decision is appended and
`True` returned. -/
def record_decision (s : CounterState) (d : DecisionRec) : Bool × CounterState :=
  if !can_make_decision s ∧ d.executed then
    (false, s)
  else
    (true, { s with decisions := s.decisions ++ [d] })

/-- A sequence of `record_decision` calls within one calendar day. -/
def runDecisions (s : CounterState) (ds : List DecisionRec) : CounterState :=
  ds.foldl (fun st d => (record_decision st d).2) s

/-! ## Win-streak sizing (`WinStreakManager.record_trade_result`) -/

/-- The mutable state of `WinStreakManager`. -/
structure WinStreakState where
  consecutive_wins : ℕ
  sizing_adjustment : ℚ
  deriving Repr, DecidableEq

/-- `WinStreakManager.record_trade_result(trade_result)`: on a profitable
trade the win counter increments and the multiplier drops to 0.5 at ≥10
wins, to 0.75 at ≥8 wins, and is otherwise left as it was; any loss resets
the counter to 0 and the multiplier to 1.0. -/
def record_trade_result (s : WinStreakState) (profitable : Bool) : WinStreakState :=
  if profitable then
    let w := s.consecutive_wins + 1
    if w ≥ 10 then ⟨w, 50/100⟩
    else if w ≥ 8 then ⟨w, 75/100⟩
    else ⟨w, s.sizing_adjustment⟩
  else
    ⟨0, 1⟩

/-! ## Smart fill (`TradeExecutor._smart_fill_order`) -/

/-- The `action` argument of `_smart_fill_order`. -/
inductive OrderAction where
  | sell
  | buy
  deriving Repr, DecidableEq

/-- Quoted market for the contract (`ticker.bid` / `ticker.ask`). -/
structure Quote where
  bid : ℚ
  ask : ℚ
  deriving Repr, DecidableEq

/-- A completed fill (`fill_price`; order id and time omitted). -/
structure FillResult where
  fill_price : ℚ
  deriving Repr, DecidableEq

/-- The end-of-iteration price update of the smart-fill loop:
`current_price += increment` followed by the clamp that keeps the price
from crossing past `target_price`. -/
def smartStep (increment target price : ℚ) : ℚ :=
  let p := price + increment
  if increment > 0 ∧ p > target then target
  else if increment < 0 ∧ p < target then target
  else p

/-- The `while attempts < max_attempts` loop of `_smart_fill_order`, with
the broker's fill behaviour abstracted as an oracle `fills : ℕ → Bool`
telling whether the order submitted on attempt `i` fills within the
2-minute wait.  Returns the list of submitted limit prices and the fill
result, recursing on the remaining attempt budget. -/
def smartFillLoop (fills : ℕ → Bool) (increment target : ℚ) :
    ℕ → ℕ → ℚ → List ℚ × Option FillResult
  | 0, _, _ => ([], none)
  | rem + 1, i, price =>
      if fills i then ([price], some ⟨price⟩)
      else
        let r := smartFillLoop fills increment target rem (i + 1)
          (smartStep increment target price)
        (price :: r.1, r.2)

/-- `TradeExecutor._smart_fill_order`: sells start at the ask and step down
by 0.05 toward the bid; buys start at the bid and step up by 0.05 toward
the ask; at most 3 attempts; `none` when no attempt fills. -/
def smart_fill_order (fills : ℕ → Bool) (action : OrderAction) (q : Quote) :
    List ℚ × Option FillResult :=
  match action with
  | .sell => smartFillLoop fills (-(5/100)) q.bid 3 0 q.ask
  | .buy => smartFillLoop fills (5/100) q.ask 3 0 q.bid

/-- The full ladder of prices the loop would try: each successive price is
one `smartStep` (0.05 toward the passive side, clamped at it) from the
previous.  The submitted prices are always a prefix of this ladder. -/
def stepChain (increment target : ℚ) : ℕ → ℚ → List ℚ
  | 0, _ => []
  | r + 1, p => p :: stepChain increment target r (smartStep increment target p)

/-! ## Trade-time gate (`TradeExecutor._is_optimal_trade_time` and the gate
at the top of `TradeExecutor.sell_put`) -/

/-- `TradeExecutor._is_optimal_trade_time`, with the wall clock given as
`weekday` (Python `datetime.weekday()`: Monday = 0 … Sunday = 6) and the
time of day in minutes since midnight (sub-minute precision does not affect
any comparison against the whole-minute window bounds).  Only Monday (0)
and Friday (4) are excluded by the day check; the windows are
10:00–11:00 and 14:00–15:00 inclusive. -/
def is_optimal_trade_time (weekday : ℕ) (minutes : ℕ) : Bool :=
  if weekday = 0 ∨ weekday = 4 then false
  else decide ((600 ≤ minutes ∧ minutes ≤ 660) ∨ (840 ≤ minutes ∧ minutes ≤ 900))

/-- How far `TradeExecutor.sell_put` gets before its first broker call. -/
inductive SellPutOutcome where
  | refusedTime
  | refusedCriteria
  | proceeds
  deriving Repr, DecidableEq

/-- The gate sequence at the top of `TradeExecutor.sell_put`: the
trade-time check runs first and returns `None` (no broker call) when it
fails; then `check_entry_criteria` must approve; only then does the method
go on to build the contract and submit orders. -/
def sell_put_gate (weekday minutes : ℕ) (t : Thresholds) (inp : EntryInputs) :
    SellPutOutcome :=
  if !is_optimal_trade_time weekday minutes then SellPutOutcome.refusedTime
  else if !(check_entry_criteria t inp).meets_criteria then SellPutOutcome.refusedCriteria
  else SellPutOutcome.proceeds

/-! ## Position sizing (`TradeExecutor._calculate_position_size`) -/

/-- Python `int()` applied to a rational: truncation toward zero. -/
def pyInt (q : ℚ) : ℤ :=
  if q < 0 then -⌊-q⌋ else ⌊q⌋

/-- `TradeExecutor._calculate_position_size`: base size
`int(account_value * 0.10 / (strike * 100))`, scaled by 0.75 in a BEAR
regime, by the win-streak tier (0.5 at ≥10 wins, 0.75 at ≥8), and by the
Black Swan `position_size_multiplier`, each through `int()`; floored at 1
contract. -/
def calculate_position_size (account_value strike : ℚ) (regimeBear : Bool)
    (consecutive_wins : ℕ) (position_size_multiplier : ℚ) : ℤ :=
  let position_value := strike * 100
  let m0 := pyInt (account_value * (10/100) / position_value)
  let m1 := if regimeBear then pyInt ((m0 : ℚ) * (75/100)) else m0
  let m2 :=
    if consecutive_wins ≥ 10 then pyInt ((m1 : ℚ) * (50/100))
    else if consecutive_wins ≥ 8 then pyInt ((m1 : ℚ) * (75/100))
    else m1
  let m3 := pyInt ((m2 : ℚ) * position_size_multiplier)
  max 1 m3

/-! ## Concrete inputs used by the theorems below -/

/-- An entry snapshot on which every rule passes: the §8 end-to-end
scenario A inputs, with `days_to_earnings` set to the 999 that
`days_to_earnings` produces when the earnings query errors. -/
def passingEntry : EntryInputs :=
  { blackSwanActive := false
    iv_rank := 60
    current_iv := 25
    liquidity_liquid := true
    liquidity_issues := []
    valuation_meets := true
    valuation_issue := ""
    strike := 50
    account_value := 100000
    sector_ok := true
    sector_issue := ""
    days_to_earnings := 999
    circuit_breaker_active := false
    consecutive_wins := 0 }

/-- An entry snapshot with the Black Swan Protocol active and the IV-rank
rule also failing (`iv_rank = 0 < 50`). -/
def bsAndIvEntry : EntryInputs :=
  { passingEntry with blackSwanActive := true, iv_rank := 0 }

/-- An entry snapshot (Black Swan inactive) on which several rules fail at
once: IV rank 0, 3 days to earnings, circuit breaker active. -/
def multiFailEntry : EntryInputs :=
  { passingEntry with
    iv_rank := 0
    days_to_earnings := 3
    circuit_breaker_active := true }

/-- Account state triggering all three §4.3 circuit-breaker conditions:
25% drawdown from peak, trailing P&L sum of −20% of account value, and 3
consecutive losing days. -/
def cbTriggerState : AccountState :=
  { account_value := 75000
    peak_value := 100000
    daily_pnl := [-5000, -5000, -5000] }

/-- Inactive Black Swan state. -/
def bsInactive : BlackSwanState := ⟨false, 0⟩

/-- Market snapshot with VIX at 55, above the activation trigger of 50. -/
def vixSpike : MarketConditions := ⟨55, 0, 0⟩

/-- A short put, 10 DTE, whose Greeks are unavailable. -/
def noGreeksPos : RollInputs :=
  { dte := 10
    modelGreeksDelta := none
    unrealizedPnL := some 100
    avgCost := 200
    position := -1
    right := OptRight.put }

/-- A short put simultaneously satisfying the defensive-roll condition
(delta 0.65) and the time-roll condition (10 DTE ≤ 21). -/
def rollBoth : RollInputs :=
  { dte := 10
    modelGreeksDelta := some (65/100)
    unrealizedPnL := none
    avgCost := 200
    position := -1
    right := OptRight.put }

/-- An executed decision record. -/
def execDec : DecisionRec :=
  ⟨"XYZ", "ROLL", "delta breach", "CRITICAL", true⟩

/-- A recorded-but-unexecuted decision record. -/
def pendDec : DecisionRec :=
  ⟨"XYZ", "OPEN", "new entry", "ROUTINE", false⟩

/-- Four consecutive executed-decision attempts in one day. -/
def fourExec : List DecisionRec := [execDec, execDec, execDec, execDec]

/-- A counter state already at its daily cap of 3 executed decisions. -/
def cappedState : CounterState := ⟨3, [execDec, execDec, execDec]⟩

/-- A quote with bid 0.95, ask 1.05. -/
def demoQuote : Quote := ⟨95/100, 105/100⟩

/-! # Theorems -/

/-! ## Helper lemmas -/

@[simp]
lemma addIssue_meets (c : EntryCriteria) (f : Bool) (m : String) :
    (addIssue c f m).meets_criteria = (c.meets_criteria && !f) := by
  cases f <;> simp [addIssue]

@[simp]
lemma addIssue_issues (c : EntryCriteria) (f : Bool) (m : String) :
    (addIssue c f m).issues = c.issues ++ (if f then [m] else []) := by
  cases f <;> simp [addIssue]

@[simp]
lemma addIssues_meets (c : EntryCriteria) (f : Bool) (ms : List String) :
    (addIssues c f ms).meets_criteria = (c.meets_criteria && !f) := by
  cases f <;> simp [addIssues]

@[simp]
lemma addIssues_issues (c : EntryCriteria) (f : Bool) (ms : List String) :
    (addIssues c f ms).issues = c.issues ++ (if f then ms else []) := by
  cases f <;> simp [addIssues]

/-- C1 (amended).  The entry evaluator never approves while any rule fails,
and — provided the Black Swan Protocol is inactive — collects a reason for
every failing rule without short-circuiting; but when the Black Swan
Protocol is active it returns at once with that single reason, evaluating
no further rule. -/
theorem entry_criteria_no_approve_and_collects (t : Thresholds) (inp : EntryInputs) :
    ((check_entry_criteria t inp).meets_criteria = true →
      inp.blackSwanActive = false ∧
      ¬(inp.iv_rank < t.iv_rank_min) ∧
      ¬(inp.current_iv < t.iv_min) ∧
      inp.liquidity_liquid = true ∧
      inp.valuation_meets = true ∧
      ¬(inp.strike * 100 > inp.account_value * t.max_position_pct) ∧
      inp.sector_ok = true ∧
      ¬(inp.days_to_earnings ≤ t.earnings_buffer_days) ∧
      inp.circuit_breaker_active = false ∧
      ¬(t.win_streak_caution ≤ inp.consecutive_wins)) ∧
    (inp.blackSwanActive = true →
      check_entry_criteria t inp = ⟨false, ["Black Swan Protocol active"]⟩) ∧
    (inp.blackSwanActive = false →
      ((inp.iv_rank < t.iv_rank_min →
         ivRankMsg inp.iv_rank ∈ (check_entry_criteria t inp).issues) ∧
       (inp.current_iv < t.iv_min →
         ivAbsMsg inp.current_iv ∈ (check_entry_criteria t inp).issues) ∧
       (inp.liquidity_liquid = false →
         ∀ s ∈ inp.liquidity_issues, s ∈ (check_entry_criteria t inp).issues) ∧
       (inp.valuation_meets = false →
         inp.valuation_issue ∈ (check_entry_criteria t inp).issues) ∧
       (inp.strike * 100 > inp.account_value * t.max_position_pct →
         "Position too large for account" ∈ (check_entry_criteria t inp).issues) ∧
       (inp.sector_ok = false →
         inp.sector_issue ∈ (check_entry_criteria t inp).issues) ∧
       (inp.days_to_earnings ≤ t.earnings_buffer_days →
         "Too close to earnings" ∈ (check_entry_criteria t inp).issues) ∧
       (inp.circuit_breaker_active = true →
         "Circuit breaker active" ∈ (check_entry_criteria t inp).issues) ∧
       (t.win_streak_caution ≤ inp.consecutive_wins →
         winStreakMsg inp.consecutive_wins ∈ (check_entry_criteria t inp).issues))) := by
  refine ⟨?_, ?_, ?_⟩
  · intro hm
    by_cases hbs : inp.blackSwanActive
    · simp [check_entry_criteria, hbs] at hm
    · simp only [Bool.not_eq_true] at hbs
      refine ⟨hbs, ?_⟩
      simp only [check_entry_criteria, hbs, Bool.false_eq_true, if_false,
        addIssue_meets, addIssues_meets, Bool.and_eq_true, Bool.not_eq_eq_eq_not,
        Bool.not_true, decide_eq_false_iff_not, Bool.not_eq_false'] at hm
      tauto
  · intro hbs
    simp [check_entry_criteria, hbs]
  · intro hbs
    refine ⟨?_, ?_, ?_, ?_, ?_, ?_, ?_, ?_, ?_⟩ <;>
      intro hf <;>
      simp [check_entry_criteria, hbs, hf] <;>
      tauto

/-- C1 (counterexample).  When the Black Swan rule fails together with the
IV-rank rule, the issues list holds only the Black Swan reason: the claim
that every failing rule (including Black Swan together with any other rule)
gets a listed reason is false. -/
theorem entry_criteria_black_swan_short_circuits :
    bsAndIvEntry.blackSwanActive = true ∧
    bsAndIvEntry.iv_rank < defaultThresholds.iv_rank_min ∧
    (check_entry_criteria defaultThresholds bsAndIvEntry).meets_criteria = false ∧
    (check_entry_criteria defaultThresholds bsAndIvEntry).issues =
      ["Black Swan Protocol active"] ∧
    ivRankMsg bsAndIvEntry.iv_rank ∉
      (check_entry_criteria defaultThresholds bsAndIvEntry).issues := by
  decide

/-- C1 (witness).  At a snapshot where IV rank, earnings buffer and circuit
breaker all fail (Black Swan inactive), all three reasons are listed and
the entry is not approved. -/
theorem entry_criteria_collects_witness :
    ivRankMsg multiFailEntry.iv_rank ∈
      (check_entry_criteria defaultThresholds multiFailEntry).issues ∧
    "Too close to earnings" ∈
      (check_entry_criteria defaultThresholds multiFailEntry).issues ∧
    "Circuit breaker active" ∈
      (check_entry_criteria defaultThresholds multiFailEntry).issues ∧
    (check_entry_criteria defaultThresholds multiFailEntry).meets_criteria = false := by
  have h := entry_criteria_no_approve_and_collects defaultThresholds multiFailEntry
  have h3 := h.2.2 rfl
  exact ⟨h3.1 (by decide), h3.2.2.2.2.2.2.1 (by decide),
    h3.2.2.2.2.2.2.2.1 rfl, by decide⟩

/-- C2.  `check_circuit_breaker` is a disabled stub: at an account state
that satisfies all three activation triggers of §4.3 at once (25% drawdown
from peak, trailing P&L of −20% of account value, three consecutive losing
days), it still reports the breaker inactive with no reactivation time. -/
theorem circuit_breaker_disabled_ignores_triggers :
    (cbTriggerState.peak_value - cbTriggerState.account_value) /
        cbTriggerState.peak_value ≥ 20/100 ∧
    cbTriggerState.daily_pnl.sum / cbTriggerState.account_value ≤ -(10/100) ∧
    cbTriggerState.daily_pnl.length = 3 ∧
    (∀ x ∈ cbTriggerState.daily_pnl, x < 0) ∧
    (check_circuit_breaker cbTriggerState).active = false ∧
    (check_circuit_breaker cbTriggerState).ends = none := by
  refine ⟨by norm_num [cbTriggerState], by norm_num [cbTriggerState], rfl,
    by norm_num [cbTriggerState], rfl, rfl⟩

/-- C3.  `check_activation_conditions` is a disabled stub: with the
protocol inactive and VIX at 55 (above the 50 trigger) it returns `False`
and leaves the state inactive, so the INACTIVE→ACTIVE transition never
happens; `close_near_term_positions`, which the activation path would call,
does select exactly the DTE<14 positions when invoked. -/
theorem black_swan_activation_disabled :
    vixSpike.vix > 50 ∧
    bsInactive.active = false ∧
    check_activation_conditions bsInactive vixSpike = (false, bsInactive) ∧
    close_near_term_positions [5, 20, 13, 45] = [5, 13] := by
  refine ⟨by decide, rfl, rfl, by decide⟩

/-- Concrete evaluation of the entry evaluator on the all-rules-pass
snapshot. -/
lemma passingEntry_eval :
    check_entry_criteria defaultThresholds passingEntry = ⟨true, []⟩ := by
  norm_num [check_entry_criteria, passingEntry, defaultThresholds, addIssue, addIssues]

/-- C4.  Missing market data is treated as passing: an errored earnings
query yields 999 days-to-earnings, so the earnings-buffer rule passes and
the entry can be approved; and with Greeks unavailable the defensive-roll
rule is silently skipped, the time rule deciding instead. -/
theorem missing_data_fails_open :
    days_to_earnings EarningsQuery.fetchError = 999 ∧
    days_to_earnings EarningsQuery.noDates = 999 ∧
    ¬(days_to_earnings EarningsQuery.fetchError ≤ defaultThresholds.earnings_buffer_days) ∧
    passingEntry.days_to_earnings = days_to_earnings EarningsQuery.fetchError ∧
    (check_entry_criteria defaultThresholds passingEntry).meets_criteria = true ∧
    "Too close to earnings" ∉ (check_entry_criteria defaultThresholds passingEntry).issues ∧
    noGreeksPos.modelGreeksDelta = none ∧
    noGreeksPos.dte ≤ defaultThresholds.roll_dte ∧
    (check_roll_decision defaultThresholds noGreeksPos).action = "ROLL_TIME" ∧
    (check_roll_decision defaultThresholds noGreeksPos).rule_trigger ≠ some "delta_roll" := by
  refine ⟨rfl, rfl, by decide, rfl, ?_, ?_, rfl, by decide, by decide, by decide⟩
  · simp [passingEntry_eval]
  · simp [passingEntry_eval]

/-- C5.  A position satisfying both the defensive-roll condition (Greeks
present, |delta| above threshold) and the time-roll condition (DTE within
the roll window) gets the single decision ROLL_DEFENSIVE — never ROLL_TIME
— from `check_roll_decision` (which returns at the first matching rule) and
likewise from the per-position body of `check_adjustments_needed`. -/
theorem roll_priority_defensive (t : Thresholds) (p : RollInputs) (d : ℚ)
    (hg : p.modelGreeksDelta = some d)
    (hd : |d| > t.roll_delta_threshold)
    (_ht : p.dte ≤ t.roll_dte) :
    (check_roll_decision t p).action = "ROLL_DEFENSIVE" ∧
    (check_roll_decision t p).action ≠ "ROLL_TIME" ∧
    (check_roll_decision t p).rule_trigger = some "delta_roll" ∧
    adjustment_for t p = some ⟨"ROLL_DEFENSIVE", "CRITICAL"⟩ := by
  have hf : deltaRollFires t p.modelGreeksDelta = true := by
    simp [deltaRollFires, hg]
    exact hd
  refine ⟨?_, ?_, ?_, ?_⟩ <;> simp [check_roll_decision, adjustment_for, hf]

/-- C5 (witness): a short put with delta 0.65 and 10 DTE satisfies both
rules and is decided ROLL_DEFENSIVE. -/
theorem roll_priority_defensive_witness :
    (|(65 : ℚ)/100| > defaultThresholds.roll_delta_threshold ∧
      rollBoth.dte ≤ defaultThresholds.roll_dte) ∧
    (check_roll_decision defaultThresholds rollBoth).action = "ROLL_DEFENSIVE" ∧
    (check_roll_decision defaultThresholds rollBoth).action ≠ "ROLL_TIME" ∧
    (check_roll_decision defaultThresholds rollBoth).rule_trigger = some "delta_roll" ∧
    adjustment_for defaultThresholds rollBoth = some ⟨"ROLL_DEFENSIVE", "CRITICAL"⟩ :=
  ⟨⟨by rw [abs_of_nonneg (by norm_num : (0:ℚ) ≤ 65/100)]; norm_num [defaultThresholds],
    by decide⟩,
   roll_priority_defensive defaultThresholds rollBoth (65/100) rfl
     (by rw [abs_of_nonneg (by norm_num : (0:ℚ) ≤ 65/100)]; norm_num [defaultThresholds])
     (by decide)⟩

/-- Appending a decision changes the executed count by 1 exactly when the
appended decision is executed. -/
lemma executedCount_append (s : CounterState) (d : DecisionRec) :
    executedCount { s with decisions := s.decisions ++ [d] } =
      executedCount s + (if d.executed then 1 else 0) := by
  cases hde : d.executed <;> simp [executedCount, List.filter_append, hde]

/-- `record_decision` never changes the daily cap. -/
lemma record_decision_max (s : CounterState) (d : DecisionRec) :
    ((record_decision s d).2).max_daily_decisions = s.max_daily_decisions := by
  unfold record_decision
  split <;> rfl

/-- One `record_decision` call preserves the executed-count cap. -/
lemma executedCount_record_le (s : CounterState) (d : DecisionRec)
    (h : executedCount s ≤ s.max_daily_decisions) :
    executedCount (record_decision s d).2 ≤ s.max_daily_decisions := by
  unfold record_decision
  split
  · exact h
  · rename_i hcond
    rw [executedCount_append]
    cases hde : d.executed
    · simpa using h
    · have hcan : can_make_decision s = true := by
        rcases hb : can_make_decision s with _ | _
        · exact absurd ⟨by simp [hb], hde⟩ hcond
        · rfl
      have hlt : executedCount s < s.max_daily_decisions := by
        simpa [can_make_decision] using hcan
      simp only [if_true]
      omega

/-- A whole day of `record_decision` calls preserves the cap. -/
lemma runDecisions_le (calls : List DecisionRec) :
    ∀ s : CounterState, executedCount s ≤ s.max_daily_decisions →
      executedCount (runDecisions s calls) ≤ s.max_daily_decisions := by
  induction calls with
  | nil => exact fun s h => h
  | cons d rest ih =>
      intro s h
      have h1 := executedCount_record_le s d h
      have h2 := record_decision_max s d
      have h3 := ih (record_decision s d).2 (by rw [h2]; exact h1)
      rw [h2] at h3
      simpa [runDecisions] using h3

/-- C6.  Starting from an empty day, no sequence of `record_decision`
calls drives the executed count above the daily cap; once the cap is
reached an `executed=True` call is refused (returns `False`, state
unchanged) while an `executed=False` call is still recorded. -/
theorem decision_budget_invariant (maxd : ℕ) (calls : List DecisionRec) :
    executedCount (runDecisions ⟨maxd, []⟩ calls) ≤ maxd ∧
    (∀ s : CounterState, ∀ d : DecisionRec,
      s.max_daily_decisions ≤ executedCount s → d.executed = true →
      record_decision s d = (false, s)) ∧
    (∀ s : CounterState, ∀ d : DecisionRec, d.executed = false →
      record_decision s d = (true, { s with decisions := s.decisions ++ [d] })) := by
  refine ⟨runDecisions_le calls ⟨maxd, []⟩ (by simp [executedCount]), ?_, ?_⟩
  · intro s d hcap hde
    have hcan : can_make_decision s = false := by
      simp [can_make_decision]
      omega
    simp [record_decision, hcan, hde]
  · intro s d hde
    simp [record_decision, hde]

/-- C6 (witness): four executed attempts leave at most 3 executed; at the
cap, an executed decision is refused and a pending one recorded. -/
theorem decision_budget_witness :
    executedCount (runDecisions ⟨3, []⟩ fourExec) ≤ 3 ∧
    record_decision cappedState execDec = (false, cappedState) ∧
    record_decision cappedState pendDec =
      (true, { cappedState with decisions := cappedState.decisions ++ [pendDec] }) :=
  ⟨(decision_budget_invariant 3 fourExec).1,
   (decision_budget_invariant 3 fourExec).2.1 cappedState execDec (by decide) rfl,
   (decision_budget_invariant 3 fourExec).2.2 cappedState pendDec rfl⟩

/-- C7.  A profitable trade increments the win counter, and the multiplier
becomes 0.5 at ≥10 wins, 0.75 at ≥8, and is otherwise unchanged; any loss
resets the counter to 0 and the multiplier to 1.0 in the same call. -/
theorem win_streak_update (s : WinStreakState) (profitable : Bool) :
    (profitable = true →
      (record_trade_result s profitable).consecutive_wins = s.consecutive_wins + 1 ∧
      (10 ≤ s.consecutive_wins + 1 →
        (record_trade_result s profitable).sizing_adjustment = 50/100) ∧
      (8 ≤ s.consecutive_wins + 1 ∧ s.consecutive_wins + 1 < 10 →
        (record_trade_result s profitable).sizing_adjustment = 75/100) ∧
      (s.consecutive_wins + 1 < 8 →
        (record_trade_result s profitable).sizing_adjustment = s.sizing_adjustment)) ∧
    (profitable = false →
      (record_trade_result s profitable).consecutive_wins = 0 ∧
      (record_trade_result s profitable).sizing_adjustment = 1) := by
  cases profitable with
  | false =>
      constructor
      · intro h
        exact absurd h (by simp)
      · intro _
        simp [record_trade_result]
  | true =>
      constructor
      · intro _
        refine ⟨?_, ?_, ?_, ?_⟩
        · simp only [record_trade_result, eq_self_iff_true, if_true]
          split_ifs <;> rfl
        · intro h10
          simp only [record_trade_result, eq_self_iff_true, if_true]
          split_ifs <;> first | rfl | (exfalso; omega)
        · rintro ⟨h8, h10⟩
          simp only [record_trade_result, eq_self_iff_true, if_true]
          split_ifs <;> first | rfl | (exfalso; omega)
        · intro h8
          simp only [record_trade_result, eq_self_iff_true, if_true]
          split_ifs <;> first | rfl | (exfalso; omega)
      · intro h
        exact absurd h (by simp)

/-- C7 (witness): a 10th win drops the multiplier to 0.5; a loss after a
12-win streak resets to 0 wins and multiplier 1.0. -/
theorem win_streak_update_witness :
    (record_trade_result ⟨9, 75/100⟩ true).consecutive_wins = 10 ∧
    (record_trade_result ⟨9, 75/100⟩ true).sizing_adjustment = 50/100 ∧
    (record_trade_result ⟨12, 50/100⟩ false).consecutive_wins = 0 ∧
    (record_trade_result ⟨12, 50/100⟩ false).sizing_adjustment = 1 := by
  have hw := (win_streak_update ⟨9, 75/100⟩ true).1 rfl
  have hl := (win_streak_update ⟨12, 50/100⟩ false).2 rfl
  exact ⟨by simpa using hw.1, hw.2.1 (by norm_num), hl.1, hl.2⟩

/-- Unfolding of one smart-fill attempt. -/
lemma smartFillLoop_succ (f : ℕ → Bool) (inc t : ℚ) (rem i : ℕ) (p : ℚ) :
    smartFillLoop f inc t (rem + 1) i p =
      if f i then ([p], some ⟨p⟩)
      else
        let r := smartFillLoop f inc t rem (i + 1) (smartStep inc t p)
        (p :: r.1, r.2) := rfl

/-- No attempts left: nothing submitted, no fill. -/
lemma smartFillLoop_zero (f : ℕ → Bool) (inc t : ℚ) (i : ℕ) (p : ℚ) :
    smartFillLoop f inc t 0 i p = ([], none) := rfl

/-- The first submitted price is the starting price. -/
lemma smartFillLoop_head (f : ℕ → Bool) (inc t : ℚ) (rem i : ℕ) (p : ℚ) :
    ((smartFillLoop f inc t (rem + 1) i p).1).head? = some p := by
  cases hf : f i <;> simp [smartFillLoop_succ, hf]

/-- At most one limit order per remaining attempt. -/
lemma smartFillLoop_length (f : ℕ → Bool) (inc t : ℚ) :
    ∀ (rem i : ℕ) (p : ℚ), (smartFillLoop f inc t rem i p).1.length ≤ rem := by
  intro rem
  induction rem with
  | zero =>
      intro i p
      simp [smartFillLoop_zero]
  | succ n ih =>
      intro i p
      cases hf : f i
      · have := ih (i + 1) (smartStep inc t p)
        simp only [smartFillLoop_succ, hf]
        simp only [Bool.false_eq_true, if_false, List.length_cons]
        omega
      · simp [smartFillLoop_succ, hf]

/-- The submitted prices are a prefix of the step ladder. -/
lemma smartFillLoop_ladder (f : ℕ → Bool) (inc t : ℚ) :
    ∀ (rem i : ℕ) (p : ℚ),
      ∃ rest, (smartFillLoop f inc t rem i p).1 ++ rest = stepChain inc t rem p := by
  intro rem
  induction rem with
  | zero =>
      intro i p
      exact ⟨[], rfl⟩
  | succ n ih =>
      intro i p
      cases hf : f i
      · obtain ⟨u, hu⟩ := ih (i + 1) (smartStep inc t p)
        exact ⟨u, by simp [smartFillLoop_succ, hf, stepChain, hu]⟩
      · exact ⟨stepChain inc t n (smartStep inc t p),
          by simp [smartFillLoop_succ, hf, stepChain]⟩

/-- When no attempt ever fills, the loop reports no fill. -/
lemma smartFillLoop_none (f : ℕ → Bool) (inc t : ℚ) (hf : ∀ i, f i = false) :
    ∀ (rem i : ℕ) (p : ℚ), (smartFillLoop f inc t rem i p).2 = none := by
  intro rem
  induction rem with
  | zero =>
      intro i p
      rfl
  | succ n ih =>
      intro i p
      simp only [smartFillLoop_succ, hf i, Bool.false_eq_true, if_false]
      exact ih (i + 1) (smartStep inc t p)

/-- With a negative increment the step stays between the target and the
previous price. -/
lemma smartStep_bounds_neg (inc target price : ℚ) (hinc : inc < 0)
    (h : target ≤ price) :
    target ≤ smartStep inc target price ∧ smartStep inc target price ≤ price := by
  unfold smartStep
  dsimp only
  split_ifs with h1 h2
  · exact ⟨le_rfl, h⟩
  · exact ⟨le_rfl, h⟩
  · push_neg at h2
    exact ⟨h2 hinc, by linarith⟩

/-- With a negative increment every submitted price lies between the
target (passive side) and the starting price. -/
lemma smartFillLoop_mem_bounds (f : ℕ → Bool) (inc target : ℚ) (hinc : inc < 0) :
    ∀ (rem i : ℕ) (p : ℚ), target ≤ p →
      ∀ x ∈ (smartFillLoop f inc target rem i p).1, target ≤ x ∧ x ≤ p := by
  intro rem
  induction rem with
  | zero =>
      intro i p _ x hx
      simp [smartFillLoop_zero] at hx
  | succ n ih =>
      intro i p hp x hx
      cases hf : f i
      · rw [smartFillLoop_succ] at hx
        simp only [hf, Bool.false_eq_true, if_false, List.mem_cons] at hx
        rcases hx with rfl | hx'
        · exact ⟨hp, le_rfl⟩
        · have hb := smartStep_bounds_neg inc target p hinc hp
          have hz := ih (i + 1) (smartStep inc target p) hb.1 x hx'
          exact ⟨hz.1, le_trans hz.2 hb.2⟩
      · rw [smartFillLoop_succ] at hx
        simp only [hf, if_true, List.mem_singleton] at hx
        subst hx
        exact ⟨hp, le_rfl⟩

/-- With a positive increment the step stays between the previous price
and the target. -/
lemma smartStep_bounds_pos (inc target price : ℚ) (hinc : 0 < inc)
    (h : price ≤ target) :
    price ≤ smartStep inc target price ∧ smartStep inc target price ≤ target := by
  unfold smartStep
  dsimp only
  split_ifs with h1 h2
  · exact ⟨h, le_rfl⟩
  · exact ⟨h, le_rfl⟩
  · push_neg at h1
    exact ⟨by linarith, h1 hinc⟩

/-- With a positive increment every submitted price lies between the
starting price and the target (passive side). -/
lemma smartFillLoop_mem_bounds_pos (f : ℕ → Bool) (inc target : ℚ) (hinc : 0 < inc) :
    ∀ (rem i : ℕ) (p : ℚ), p ≤ target →
      ∀ x ∈ (smartFillLoop f inc target rem i p).1, p ≤ x ∧ x ≤ target := by
  intro rem
  induction rem with
  | zero =>
      intro i p _ x hx
      simp [smartFillLoop_zero] at hx
  | succ n ih =>
      intro i p hp x hx
      cases hf : f i
      · rw [smartFillLoop_succ] at hx
        simp only [hf, Bool.false_eq_true, if_false, List.mem_cons] at hx
        rcases hx with rfl | hx'
        · exact ⟨le_rfl, hp⟩
        · have hb := smartStep_bounds_pos inc target p hinc hp
          have hz := ih (i + 1) (smartStep inc target p) hb.2 x hx'
          exact ⟨le_trans hb.1 hz.1, hz.2⟩
      · rw [smartFillLoop_succ] at hx
        simp only [hf, if_true, List.mem_singleton] at hx
        subst hx
        exact ⟨le_rfl, hp⟩

/-- C8.  The smart-fill protocol, for both directions: the first limit
price is the ask for a sell and the bid for a buy; at most 3 orders are
submitted either way; the submitted prices are an initial segment of the
0.05-step ladder toward the passive side (the bid for a sell, the ask for
a buy) and never cross past it; and when nothing fills the result is a
no-fill `none`, not an error. -/
theorem smart_fill_protocol (fills : ℕ → Bool) (q : Quote) (h : q.bid ≤ q.ask) :
    ((smart_fill_order fills OrderAction.sell q).1).head? = some q.ask ∧
    ((smart_fill_order fills OrderAction.buy q).1).head? = some q.bid ∧
    (smart_fill_order fills OrderAction.sell q).1.length ≤ 3 ∧
    (smart_fill_order fills OrderAction.buy q).1.length ≤ 3 ∧
    (∃ rest, (smart_fill_order fills OrderAction.sell q).1 ++ rest =
      stepChain (-(5/100)) q.bid 3 q.ask) ∧
    (∃ rest, (smart_fill_order fills OrderAction.buy q).1 ++ rest =
      stepChain (5/100) q.ask 3 q.bid) ∧
    stepChain (-(5/100)) q.bid 3 q.ask =
      [q.ask, smartStep (-(5/100)) q.bid q.ask,
       smartStep (-(5/100)) q.bid (smartStep (-(5/100)) q.bid q.ask)] ∧
    stepChain (5/100) q.ask 3 q.bid =
      [q.bid, smartStep (5/100) q.ask q.bid,
       smartStep (5/100) q.ask (smartStep (5/100) q.ask q.bid)] ∧
    (∀ p ∈ (smart_fill_order fills OrderAction.sell q).1, q.bid ≤ p ∧ p ≤ q.ask) ∧
    (∀ p ∈ (smart_fill_order fills OrderAction.buy q).1, q.bid ≤ p ∧ p ≤ q.ask) ∧
    ((∀ i, fills i = false) → (smart_fill_order fills OrderAction.sell q).2 = none) ∧
    ((∀ i, fills i = false) → (smart_fill_order fills OrderAction.buy q).2 = none) := by
  refine ⟨?_, ?_, ?_, ?_, ?_, ?_, rfl, rfl, ?_, ?_, ?_, ?_⟩
  · exact smartFillLoop_head fills (-(5/100)) q.bid 2 0 q.ask
  · exact smartFillLoop_head fills (5/100) q.ask 2 0 q.bid
  · exact smartFillLoop_length fills (-(5/100)) q.bid 3 0 q.ask
  · exact smartFillLoop_length fills (5/100) q.ask 3 0 q.bid
  · exact smartFillLoop_ladder fills (-(5/100)) q.bid 3 0 q.ask
  · exact smartFillLoop_ladder fills (5/100) q.ask 3 0 q.bid
  · exact fun p hp =>
      smartFillLoop_mem_bounds fills (-(5/100)) q.bid (by norm_num) 3 0 q.ask h p hp
  · exact fun p hp =>
      smartFillLoop_mem_bounds_pos fills (5/100) q.ask (by norm_num) 3 0 q.bid h p hp
  · exact fun hn => smartFillLoop_none fills (-(5/100)) q.bid hn 3 0 q.ask
  · exact fun hn => smartFillLoop_none fills (5/100) q.ask hn 3 0 q.bid

/-- C8 (witness): with bid 0.95 / ask 1.05 and no attempt filling, the
first sell order is at 1.05, the first buy order at 0.95, and both runs
end with a no-fill result. -/
theorem smart_fill_protocol_witness :
    ((smart_fill_order (fun _ => false) OrderAction.sell demoQuote).1).head? =
      some demoQuote.ask ∧
    ((smart_fill_order (fun _ => false) OrderAction.buy demoQuote).1).head? =
      some demoQuote.bid ∧
    (smart_fill_order (fun _ => false) OrderAction.sell demoQuote).2 = none ∧
    (smart_fill_order (fun _ => false) OrderAction.buy demoQuote).2 = none := by
  have h := smart_fill_protocol (fun _ => false) demoQuote (by norm_num [demoQuote])
  exact ⟨h.1, h.2.1, h.2.2.2.2.2.2.2.2.2.2.1 (fun _ => rfl),
    h.2.2.2.2.2.2.2.2.2.2.2 (fun _ => rfl)⟩

/-- C9 (amended).  The trade-time gate passes exactly when the weekday is
neither Monday (0) nor Friday (4) — weekends are not excluded — and the
time lies in 10:00–11:00 or 14:00–15:00 inclusive; whenever it fails,
`sell_put` returns before any broker call. -/
theorem trade_time_gate (weekday minutes : ℕ) (t : Thresholds) (inp : EntryInputs) :
    (is_optimal_trade_time weekday minutes = true ↔
      (weekday ≠ 0 ∧ weekday ≠ 4) ∧
      ((600 ≤ minutes ∧ minutes ≤ 660) ∨ (840 ≤ minutes ∧ minutes ≤ 900))) ∧
    (is_optimal_trade_time weekday minutes = false →
      sell_put_gate weekday minutes t inp = SellPutOutcome.refusedTime) ∧
    (sell_put_gate weekday minutes t inp ≠ SellPutOutcome.refusedTime →
      is_optimal_trade_time weekday minutes = true) := by
  refine ⟨?_, ?_, ?_⟩
  · by_cases hd : weekday = 0 ∨ weekday = 4 <;>
      simp [is_optimal_trade_time, hd] <;>
      tauto
  · intro hf
    simp [sell_put_gate, hf]
  · intro hne
    cases hb : is_optimal_trade_time weekday minutes
    · exact absurd (by simp [sell_put_gate, hb]) hne
    · rfl

/-- C9 (counterexample).  On a Saturday (weekday 5) at 10:30 the gate
passes and `sell_put` proceeds to submission, although the claim requires
refusal on any day other than Tuesday–Thursday. -/
theorem trade_time_gate_weekend_counterexample :
    is_optimal_trade_time 5 630 = true ∧
    sell_put_gate 5 630 defaultThresholds passingEntry = SellPutOutcome.proceeds := by
  refine ⟨by decide, ?_⟩
  simp [sell_put_gate, is_optimal_trade_time, passingEntry_eval]

/-- C9 (witness): Wednesday 10:30 passes the gate; Monday 10:30 is refused
before any broker call. -/
theorem trade_time_gate_witness :
    is_optimal_trade_time 2 630 = true ∧
    sell_put_gate 0 630 defaultThresholds passingEntry = SellPutOutcome.refusedTime :=
  ⟨(trade_time_gate 2 630 defaultThresholds passingEntry).1.mpr
     (by norm_num),
   (trade_time_gate 0 630 defaultThresholds passingEntry).2.1 (by decide)⟩

/-- A rational in [0, 1) truncates to 0. -/
lemma pyInt_nonneg_lt_one (q : ℚ) (h0 : 0 ≤ q) (h1 : q < 1) : pyInt q = 0 := by
  unfold pyInt
  rw [if_neg (not_lt.mpr h0)]
  exact Int.floor_eq_zero_iff.mpr (Set.mem_Ico.mpr ⟨h0, h1⟩)

/-- `int(0)` is 0. -/
lemma pyInt_zero : pyInt 0 = 0 := by
  unfold pyInt
  norm_num

/-- C10.  The position sizer returns at least 1 contract for any inputs,
and exactly 1 when a single contract's notional already exceeds the 10%
cap — the one-contract floor takes precedence over the cap and over every
downscaling multiplier. -/
theorem position_size_min_one (account_value strike mult : ℚ) (regimeBear : Bool)
    (wins : ℕ) (hav : 0 < account_value) (hs : 0 < strike) :
    1 ≤ calculate_position_size account_value strike regimeBear wins mult ∧
    (account_value * (10/100) < strike * 100 →
      calculate_position_size account_value strike regimeBear wins mult = 1) := by
  constructor
  · exact le_max_left 1 _
  · intro hbig
    have hpv : (0:ℚ) < strike * 100 := by positivity
    have hq0 : 0 ≤ account_value * (10/100) / (strike * 100) := by positivity
    have hq1 : account_value * (10/100) / (strike * 100) < 1 := by
      rw [div_lt_one hpv]
      exact hbig
    have hm0 := pyInt_nonneg_lt_one _ hq0 hq1
    simp only [calculate_position_size, hm0]
    split_ifs <;> simp [pyInt_zero]

/-- C10 (witness): account 10,000 and strike 500 (notional 50,000, far
beyond the 10% cap), BEAR regime, a 12-win streak and a 0.25 Black Swan
multiplier still size to exactly 1 contract. -/
theorem position_size_min_one_witness :
    1 ≤ calculate_position_size 10000 500 true 12 (25/100) ∧
    calculate_position_size 10000 500 true 12 (25/100) = 1 := by
  have h := position_size_min_one 10000 500 (25/100) true 12 (by norm_num) (by norm_num)
  exact ⟨h.1, h.2 (by norm_num)⟩

end Wheel
